import Mathlib

/-
Verification of the invoice-extraction webhook (src/softr_webhook.py).

The development shallowly embeds the Python module: its string processing
(fence stripping of the completion-service response, `str.split`,
`str.replace`, `str.strip`), the Airtable record construction in
`save_to_airtable`, the PDF rasterization step `pdf_to_image`, and the
request-handling control flow of `process_background`, `webhook` and
`softr_webhook`.  External effects (HTTP fetch, PyMuPDF rendering, the
OpenAI completion call, the Airtable create call, `os.unlink` failures)
are supplied by an oracle record; the filesystem of transient files and
the order of observable actions are threaded explicitly as state.
-/

namespace SoftrWebhook

/-! ## Python string primitives (on `List Char`) -/

/-- Data of a string literal as a character list. -/
def chars (s : String) : List Char := s.data

/-- First occurrence of `sep` in `s`: `some (pre, post)` with
`s = pre ++ sep ++ post` and `pre` shortest, `none` if `sep` does not
occur (for nonempty `sep`). -/
def splitFirst (sep : List Char) : List Char → Option (List Char × List Char)
  | [] => none
  | c :: rest =>
    if sep.isPrefixOf (c :: rest) then some ([], List.drop sep.length (c :: rest))
    else
      match splitFirst sep rest with
      | some (pre, post) => some (c :: pre, post)
      | none => none

/-- Python `sep in s` (substring containment, nonempty `sep`). -/
def occursIn (sep s : List Char) : Bool := (splitFirst sep s).isSome

/-- Fueled worker for Python `str.split(sep)`. -/
def pysplitAux : Nat → List Char → List Char → List (List Char)
  | 0, _, s => [s]
  | fuel + 1, sep, s =>
    match splitFirst sep s with
    | none => [s]
    | some (pre, post) => pre :: pysplitAux fuel sep post

/-- Python `s.split(sep)` for nonempty `sep`: segments between the
non-overlapping left-to-right occurrences of `sep`. -/
def pysplit (sep s : List Char) : List (List Char) := pysplitAux (s.length + 1) sep s

/-- Indexing into a split result (in the source the index is always in range). -/
def pyIdx (l : List (List Char)) (i : Nat) : List Char := l.getD i []

/-- Fueled worker for Python `str.replace`. -/
def pyreplaceAux : Nat → List Char → List Char → List Char → List Char
  | 0, _, _, s => s
  | fuel + 1, old, new, s =>
    match splitFirst old s with
    | none => s
    | some (pre, post) => pre ++ new ++ pyreplaceAux fuel old new post

/-- Python `s.replace(old, new)`: replaces all non-overlapping occurrences. -/
def pyreplace (s old new : List Char) : List Char := pyreplaceAux (s.length + 1) old new s

/-- `str.replace` on `String`s. -/
def pyreplaceS (s old new : String) : String := ⟨pyreplace s.data old.data new.data⟩

/-- The whitespace set of Python `str.strip()` (ASCII part). -/
def isPyWs (c : Char) : Bool :=
  c == ' ' || c == '\t' || c == '\n' || c == '\r' || c == '\x0b' || c == '\x0c'

/-- Python `s.strip()`. -/
def pystrip (s : List Char) : List Char :=
  ((s.dropWhile isPyWs).reverse.dropWhile isPyWs).reverse

/-- Python `s.lower()` (ASCII). -/
def lowerS (s : String) : String := ⟨s.data.map Char.toLower⟩

/-- Python `s.endswith(suf)`. -/
def pyEndsWith (s suf : String) : Bool := suf.data.isSuffixOf s.data

/-- Python truthiness of an optional string (`None` and `""` are falsy). -/
def pyTruthy : Option String → Bool
  | none => false
  | some s => s != ""

/-- Python `"sep".join(parts)`. -/
def pyJoin (sep : String) : List String → String
  | [] => ""
  | [x] => x
  | x :: y :: rest => x ++ sep ++ pyJoin sep (y :: rest)

/-! ## Fence stripping of the completion-service response

`extract_invoice_data` post-processes the model output `content` with

```
if "```json" in content:
    content = content.split("```json")[1].split("```")[0]
elif "```" in content:
    content = content.split("```")[1].split("```")[0]
data = json.loads(content.strip())
```
-/

/-- The fence marker `"```json"`. -/
def tickJson : List Char := chars "```json"

/-- The fence marker `"```"`. -/
def ticks : List Char := chars "```"

/-- The fence-stripping step of `extract_invoice_data` (lines 122-125). -/
def stripFences (content : List Char) : List Char :=
  if occursIn tickJson content then
    pyIdx (pysplit ticks (pyIdx (pysplit tickJson content) 1)) 0
  else if occursIn ticks content then
    pyIdx (pysplit ticks (pyIdx (pysplit ticks content) 1)) 0
  else content

/-! ## `json.loads` acceptance

A syntax checker for the texts accepted by Python's `json.loads` (strict
mode plus the default `NaN`/`Infinity` extensions).  The parsed value is
a function of the accepted text, so parse results of two texts agree as
soon as the texts agree; the checker is what the claims need. -/

/-- JSON structural whitespace. -/
def jsonWsB (c : Char) : Bool := c == ' ' || c == '\t' || c == '\n' || c == '\r'

/-- Skip JSON structural whitespace. -/
def skipWs (s : List Char) : List Char := s.dropWhile jsonWsB

/-- Consume the literal `lit` or fail. -/
def expectLit (lit s : List Char) : Option (List Char) :=
  if lit.isPrefixOf s then some (s.drop lit.length) else none

/-- Hexadecimal digit. -/
def hexDigit (c : Char) : Bool :=
  c.isDigit || ('a' ≤ c && c ≤ 'f') || ('A' ≤ c && c ≤ 'F')

/-- Escape characters admitted after a backslash in a JSON string. -/
def simpleEscape (c : Char) : Bool :=
  c == '"' || c == '\\' || c == '/' || c == 'b' || c == 'f' || c == 'n' || c == 'r' || c == 't'

/-- Consume the body of a JSON string after the opening quote, up to and
including the closing quote.  Strict mode: raw control characters are
rejected. -/
def parseStringBody : List Char → Option (List Char)
  | [] => none
  | c :: rest =>
    if c == '"' then some rest
    else if c == '\\' then
      match rest with
      | [] => none
      | e :: r2 =>
        if e == 'u' then
          match r2 with
          | a :: b :: c2 :: d :: r3 =>
            if hexDigit a && hexDigit b && hexDigit c2 && hexDigit d then
              parseStringBody r3
            else none
          | _ => none
        else if simpleEscape e then parseStringBody r2
        else none
    else if c.toNat < 32 then none
    else parseStringBody rest

/-- Consume one or more decimal digits. -/
def digits1 : List Char → Option (List Char)
  | [] => none
  | c :: rest => if c.isDigit then some (rest.dropWhile Char.isDigit) else none

/-- Consume the integer part of a JSON number (`0` or a nonzero-led digit run). -/
def parseIntPart : List Char → Option (List Char)
  | [] => none
  | '0' :: rest => some rest
  | c :: rest => if c.isDigit then some (rest.dropWhile Char.isDigit) else none

/-- Consume the optional fraction and exponent of a JSON number. -/
def parseNumTail (s : List Char) : Option (List Char) :=
  match (match s with
         | '.' :: rest => digits1 rest
         | _ => some s) with
  | none => none
  | some s2 =>
    match s2 with
    | [] => some s2
    | e :: rest2 =>
      if e == 'e' || e == 'E' then
        match rest2 with
        | [] => none
        | sgn :: r3 => if sgn == '+' || sgn == '-' then digits1 r3 else digits1 rest2
      else some s2

/-- Consume a JSON number. -/
def parseNumber (s : List Char) : Option (List Char) :=
  match s with
  | '-' :: rest =>
    match parseIntPart rest with
    | some r => parseNumTail r
    | none => none
  | _ =>
    match parseIntPart s with
    | some r => parseNumTail r
    | none => none

mutual

/-- Consume one JSON value at the head of the input. -/
def parseValue : Nat → List Char → Option (List Char)
  | 0, _ => none
  | fuel + 1, s =>
    match s with
    | [] => none
    | c :: rest =>
      if c == '"' then parseStringBody rest
      else if c == '[' then parseArrayRest fuel (skipWs rest)
      else if c == '\x7b' then parseObjRest fuel (skipWs rest)
      else if c == 'n' then expectLit (chars "ull") rest
      else if c == 't' then expectLit (chars "rue") rest
      else if c == 'f' then expectLit (chars "alse") rest
      else if c == 'N' then expectLit (chars "aN") rest
      else if c == 'I' then expectLit (chars "nfinity") rest
      else if c == '-' then
        match rest with
        | 'I' :: r2 => expectLit (chars "nfinity") r2
        | _ => parseNumber (c :: rest)
      else if c.isDigit then parseNumber (c :: rest)
      else none

/-- Consume the remainder of an array after `[` and whitespace. -/
def parseArrayRest : Nat → List Char → Option (List Char)
  | 0, _ => none
  | fuel + 1, s =>
    match s with
    | ']' :: rest => some rest
    | _ => parseElems fuel s

/-- Consume a nonempty comma-separated element list plus closing `]`. -/
def parseElems : Nat → List Char → Option (List Char)
  | 0, _ => none
  | fuel + 1, s =>
    match parseValue fuel s with
    | none => none
    | some r =>
      match skipWs r with
      | ',' :: r2 => parseElems fuel (skipWs r2)
      | ']' :: r2 => some r2
      | _ => none

/-- Consume the remainder of an object after `{` and whitespace. -/
def parseObjRest : Nat → List Char → Option (List Char)
  | 0, _ => none
  | fuel + 1, s =>
    match s with
    | '\x7d' :: rest => some rest
    | _ => parseMembers fuel s

/-- Consume a nonempty member list plus closing `}`. -/
def parseMembers : Nat → List Char → Option (List Char)
  | 0, _ => none
  | fuel + 1, s =>
    match s with
    | '"' :: rest =>
      match parseStringBody rest with
      | none => none
      | some r =>
        match skipWs r with
        | ':' :: r2 =>
          match parseValue fuel (skipWs r2) with
          | none => none
          | some r3 =>
            match skipWs r3 with
            | ',' :: r4 => parseMembers fuel (skipWs r4)
            | '\x7d' :: r4 => some r4
            | _ => none
        | _ => none
    | _ => none

end

/-- Text accepted by `json.loads`. -/
def json_valid (s : List Char) : Bool :=
  match parseValue (2 * s.length + 4) (skipWs s) with
  | some r => (skipWs r).isEmpty
  | none => false

/-- The response post-processing of `extract_invoice_data` (lines 121-127):
strip the first fenced block if present, `str.strip`, then `json.loads`.
`some t` is a successful parse of the remaining text `t` (the parsed
record is a function of `t`); `none` is `ExtractionParseError`. -/
def extract_parse (content : List Char) : Option (List Char) :=
  let t := pystrip (stripFences content)
  if json_valid t then some t else none

/-- A payload wrapped in a fenced code block labeled `json`. -/
def repJson (p : List Char) : List Char := chars "```json\n" ++ p ++ chars "\n```"

/-- A payload wrapped in an unlabeled fenced code block. -/
def repPlain (p : List Char) : List Char := chars "```\n" ++ p ++ chars "\n```"

/-! ## Python values and the Airtable record construction

`json.loads` yields Python values; `save_to_airtable` (lines 130-160)
reads them through `dict.get`.  JSON numbers are modelled as integers
(the claims only involve integral values). -/

/-- A Python value as produced by `json.loads`. -/
inductive PyVal where
  | vnone
  | vbool (b : Bool)
  | vint (n : Int)
  | vstr (s : String)
  | vlist (xs : List PyVal)
  | vdict (kvs : List (String × PyVal))

/-- Whether a value is Python `None` (the filter in line 157 tests `is not None`). -/
def PyVal.isNone : PyVal → Bool
  | .vnone => true
  | _ => false

/-- Python `d.get(k)` on a dict (default `None`). -/
def pyGet (d : List (String × PyVal)) (k : String) : PyVal :=
  (List.lookup k d).getD .vnone

/-- Python `d.get(k, dflt)` on a dict. -/
def pyGetD (d : List (String × PyVal)) (k : String) (dflt : PyVal) : PyVal :=
  (List.lookup k d).getD dflt

mutual

/-- Python `repr` of a value (string fidelity only matters for scalars,
which is all the source ever formats). -/
def pyRepr : PyVal → String
  | .vnone => "None"
  | .vbool true => "True"
  | .vbool false => "False"
  | .vint n => toString n
  | .vstr s => "\x27" ++ s ++ "\x27"
  | .vlist xs => "[" ++ pyReprList xs ++ "]"
  | .vdict kvs => "\x7b" ++ pyReprPairs kvs ++ "\x7d"

/-- Comma-separated reprs of list elements. -/
def pyReprList : List PyVal → String
  | [] => ""
  | [x] => pyRepr x
  | x :: y :: rest => pyRepr x ++ ", " ++ pyReprList (y :: rest)

/-- Comma-separated reprs of dict entries. -/
def pyReprPairs : List (String × PyVal) → String
  | [] => ""
  | [kv] => "\x27" ++ kv.1 ++ "\x27: " ++ pyRepr kv.2
  | kv :: kv2 :: rest => "\x27" ++ kv.1 ++ "\x27: " ++ pyRepr kv.2 ++ ", " ++ pyReprPairs (kv2 :: rest)

end

/-- Python `str()` of a value, as used by f-string interpolation. -/
def pyStr : PyVal → String
  | .vstr s => s
  | v => pyRepr v

/-- The per-item f-string of `save_to_airtable` (line 135): description, then
" – Qty: ", quantity, " × ", unit price, " = ", amount, each sub-field read by
`itm.get` with the empty string (description) or zero (the rest) as default. -/
def renderItem (itm : List (String × PyVal)) : String :=
  pyStr (pyGetD itm "description" (.vstr "")) ++ " – Qty: " ++
  pyStr (pyGetD itm "quantity" (.vint 0)) ++ " × " ++
  pyStr (pyGetD itm "unit_price" (.vint 0)) ++ " = " ++
  pyStr (pyGetD itm "amount" (.vint 0))

/-- The flattened `items_text` block (lines 133-137): per-item renderings
joined by newlines. -/
def items_text (line_items : List (List (String × PyVal))) : String :=
  pyJoin "\n" (line_items.map renderItem)

/-- Each line item must be a dict, else `itm.get` raises `AttributeError`. -/
def toItemDict : PyVal → Except String (List (String × PyVal))
  | .vdict kvs => .ok kvs
  | _ => .error "line item has no attribute get"

/-- `invoice_data.get("line_items", [])` followed by per-item `.get` access
(line 133): the value defaults to `[]` and every element must be a dict. -/
def getItems (d : List (String × PyVal)) : Except String (List (List (String × PyVal))) :=
  match pyGetD d "line_items" (.vlist []) with
  | .vlist vs => vs.mapM toItemDict
  | _ => .error "line_items is not iterable as dicts"

/-- The record dict of `save_to_airtable` (lines 139-157): the fixed
column list, then `Source File URL` appended when the optional source
URL is truthy, then the `is not None` filter. -/
def buildRecord (d : List (String × PyVal)) (items : List (List (String × PyVal)))
    (source_file_url : Option String) : List (String × PyVal) :=
  let record : List (String × PyVal) :=
    [("Invoice Number", pyGet d "invoice_number"),
     ("Invoice Date", pyGet d "invoice_date"),
     ("Vendor Name", pyGet d "vendor_name"),
     ("Vendor Address", pyGet d "vendor_address"),
     ("Customer Name", pyGet d "customer_name"),
     ("Customer Address", pyGet d "customer_address"),
     ("Subtotal", pyGet d "subtotal"),
     ("Tax", pyGet d "tax"),
     ("Total Amount", pyGet d "total_amount"),
     ("Currency", pyGet d "currency"),
     ("Line Items", .vstr (items_text items)),
     ("Status", .vstr "Extracted")] ++
    (if pyTruthy source_file_url then [("Source File URL", .vstr (source_file_url.getD ""))] else [])
  record.filter fun kv => !kv.2.isNone

/-- The row `save_to_airtable` submits to `airtable_table.create`
(`.error` is an exception escaping the function). -/
def save_to_airtable (d : List (String × PyVal)) (source_file_url : Option String) :
    Except String (List (String × PyVal)) :=
  match getItems d with
  | .error e => .error e
  | .ok items => .ok (buildRecord d items source_file_url)

/-- The column/field pairing of the ten top-level invoice fields in the
record literal of lines 140-149. -/
def topFieldMap : List (String × String) :=
  [("Invoice Number", "invoice_number"),
   ("Invoice Date", "invoice_date"),
   ("Vendor Name", "vendor_name"),
   ("Vendor Address", "vendor_address"),
   ("Customer Name", "customer_name"),
   ("Customer Address", "customer_address"),
   ("Subtotal", "subtotal"),
   ("Tax", "tax"),
   ("Total Amount", "total_amount"),
   ("Currency", "currency")]

/-! ## Pipeline model

State-passing embedding of the module's control flow.  Transient files
and observable actions (fetch, completion call, row creation, thread
spawn, HTTP response) are threaded through a state; the outcomes of the
external services are supplied by an oracle.  The base64 step is
abstracted away: the completion oracle receives the file bytes directly. -/

/-- An HTTP response as seen through `requests.get`. -/
structure HttpResp where
  status : Nat
  contentType : String
  body : List Nat

/-- Observable actions of a run, in order of occurrence. -/
inductive Ev where
  | fetched (timeout : Nat) (url : String)
  | openaiCalled
  | rowCreated (id : String)
  | spawned
  | responded (status : Nat)
deriving DecidableEq

/-- Transient files (path, content) plus the ordered action log. -/
structure St where
  files : List (String × List Nat)
  events : List Ev
deriving DecidableEq

/-- Whether a path exists (`os.path.exists`). -/
def St.hasFile (st : St) (p : String) : Bool := st.files.any fun f => f.1 == p

/-- Read a file's bytes. -/
def St.readFile (st : St) (p : String) : Option (List Nat) :=
  (st.files.find? fun f => f.1 == p).map (·.2)

/-- Create or overwrite a file. -/
def St.write (st : St) (p : String) (b : List Nat) : St :=
  ⟨(p, b) :: st.files.filter (fun f => f.1 != p), st.events⟩

/-- `os.unlink`. -/
def St.removeFile (st : St) (p : String) : St :=
  ⟨st.files.filter (fun f => f.1 != p), st.events⟩

/-- Log an observable action. -/
def St.log (st : St) (e : Ev) : St := ⟨st.files, st.events ++ [e]⟩

/-- Outcomes of the external collaborators for one run. -/
structure Oracle where
  httpGet : Nat → String → Except String HttpResp
  pdfOpen : String → Except String (List (List Nat))
  renderPng : List Nat → Nat × Nat → List Nat
  openai : String → List Nat → Except String (List Char)
  createRes : Except String String
  unlinkFails : String → Bool

/-- The timeout passed to `requests.get` (line 171). -/
def httpTimeout : Nat := 30

/-- The deterministic stand-in for `tempfile.NamedTemporaryFile`'s path
(one run per theorem, so a fixed name is faithful). -/
def tmpBase : String := "/tmp/invoice"

/-- `pdf_to_image` (lines 36-52): open the PDF, require a page, render
the first page with `fitz.Matrix(2,2)`, write the PNG next to the PDF. -/
def pdf_to_image (o : Oracle) (st : St) (pdf_path : String) :
    Except String String × St :=
  match o.pdfOpen pdf_path with
  | .error e => (.error e, st)
  | .ok pages =>
    match pages with
    | [] => (.error "PDF has no pages", st)
    | page :: _ =>
      let img_bytes := o.renderPng page (2, 2)
      let img_path := pyreplaceS pdf_path ".pdf" ".png"
      (.ok img_path, st.write img_path img_bytes)

/-- The MIME lookup of lines 68-71. -/
def mimeOf (ext : String) : String :=
  (List.lookup ext
    [("jpg", "image/jpeg"), ("jpeg", "image/jpeg"), ("png", "image/png"),
     ("gif", "image/gif"), ("webp", "image/webp")]).getD "image/png"

/-- `file_path.lower().split('.')[-1]` (line 67). -/
def lastExt (p : String) : String :=
  ⟨(pysplit (chars ".") (lowerS p).data).getLastD []⟩

/-- `extract_invoice_data` (lines 54-128): rasterize PDFs, read the file,
call the completion service, strip fences and parse.  The successful
result is the parsed text (the structured record is a function of it). -/
def extract_invoice_data (o : Oracle) (st : St) (file_path : String) :
    Except String (List Char) × St :=
  match (if pyEndsWith (lowerS file_path) ".pdf" then pdf_to_image o st file_path
         else (.ok file_path, st)) with
  | (.error e, st1) => (.error e, st1)
  | (.ok fp, st1) =>
    match st1.readFile fp with
    | none => (.error "file not found", st1)
    | some bytes =>
      let mime := mimeOf (lastExt fp)
      let st2 := st1.log .openaiCalled
      match o.openai mime bytes with
      | .error e => (.error e, st2)
      | .ok content =>
        match extract_parse content with
        | some t => (.ok t, st2)
        | none => (.error "ExtractionParseError", st2)

/-- The row-creation call (`airtable_table.create`): logs the new row. -/
def create_row (o : Oracle) (st : St) : Except String String × St :=
  match o.createRes with
  | .error e => (.error e, st)
  | .ok id => (.ok id, st.log (.rowCreated id))

/-- Second half of the cleanup block: unlink the path obtained from
`tmp_path` by replacing `.pdf` with `.png`, when it exists. -/
def cleanupPng (o : Oracle) (st : St) (tp : String) : St :=
  let png := pyreplaceS tp ".pdf" ".png"
  if st.hasFile png then
    if o.unlinkFails png then st else st.removeFile png
  else st

/-- The shared cleanup block (`process_background` lines 194-203,
`webhook` lines 259-267 and 305-313): best-effort unlink of the temp
file and its derived PNG inside `try/except: pass`; a raising unlink
aborts the rest of the block. -/
def cleanup (o : Oracle) (st : St) (tmp_path : Option String) : St :=
  match tmp_path with
  | none => st
  | some tp =>
    if st.hasFile tp then
      if o.unlinkFails tp then st
      else cleanupPng o (st.removeFile tp) tp
    else cleanupPng o st tp

/-- The format-tag heuristic of line 173: `pdf` when the declared content type
contains `pdf` or the lowercased URL ends with `.pdf`, else `jpg`. -/
def urlExt (contentType url : String) : String :=
  if occursIn (chars "pdf") contentType.data || pyEndsWith (lowerS url) ".pdf" then "pdf"
  else "jpg"

/-- Extraction and persistence on the acquired file inside
`process_background`'s `try` body (lines 185-190); exceptions are
swallowed by line 192, leaving `tmp_path` set for the `finally` block. -/
def pb_run (o : Oracle) (st : St) (tmp : String) : Option String × St :=
  match extract_invoice_data o st tmp with
  | (.error _, st1) => (some tmp, st1)
  | (.ok _, st1) =>
    match create_row o st1 with
    | (_, st2) => (some tmp, st2)

/-- The `try` body of `process_background` (lines 164-190): returns the
`tmp_path` visible to the `finally` block.  Every exception is swallowed
by `except Exception` (line 192). -/
def pb_try (o : Oracle) (st : St) (file_path : Option String) (file_url : Option String) :
    Option String × St :=
  if pyTruthy file_url then
    let url := file_url.getD ""
    let st := st.log (.fetched httpTimeout url)
    match o.httpGet httpTimeout url with
    | .error _ => (none, st)
    | .ok r =>
      if 400 ≤ r.status ∧ r.status < 600 then (none, st)
      else
        let ext := urlExt r.contentType url
        let tmp := tmpBase ++ "." ++ ext
        pb_run o (st.write tmp r.body) tmp
  else if pyTruthy file_path then
    pb_run o st (file_path.getD "")
  else (none, st)

/-- `process_background` (lines 162-203): the `try` body, then the
`finally` cleanup. -/
def process_background (o : Oracle) (st : St) (file_path : Option String)
    (file_url : Option String) : St :=
  match pb_try o st file_path file_url with
  | (tmp_path, st1) => cleanup o st1 tmp_path

/-- A request at either POST endpoint. -/
inductive Req where
  | upload (filename : String) (content : List Nat)
  | jsonBody (file_url : Option String)
  | empty

/-- The response body fields the claims mention. -/
structure Resp where
  status : Nat
  success : Option Bool
  record_id : Option String
deriving DecidableEq

/-- `ext = filename.rsplit('.',1)[1].lower() if '.' in filename else 'jpg'`
(lines 237 and 329). -/
def uploadExt (filename : String) : String :=
  if filename.data.contains '.' then
    lowerS ⟨(filename.data.reverse.takeWhile (fun c => c != '.')).reverse⟩
  else "jpg"

/-- The allowed-extension set of `webhook` (line 240). -/
def allowedExts : List String := ["pdf", "jpg", "jpeg", "png", "gif", "webp"]

/-- The synchronous part of `webhook`'s upload branch (lines 251-315):
extract, save, clean up, and answer 200/500 only after the pipeline has
finished.  Failures jump to the handler of lines 302-315. -/
def webhook_inline_run (o : Oracle) (st : St) (tmp : String) : Resp × St :=
  match extract_invoice_data o st tmp with
  | (.error _, st1) =>
    (⟨500, some false, none⟩, ((cleanup o st1 (some tmp)).log (.responded 500)))
  | (.ok _, st1) =>
    match create_row o st1 with
    | (.error _, st2) =>
      (⟨500, some false, none⟩, ((cleanup o st2 (some tmp)).log (.responded 500)))
    | (.ok id, st2) =>
      (⟨200, some true, some id⟩, ((cleanup o st2 (some tmp)).log (.responded 200)))

/-- `webhook` (lines 220-315), the inline-processing endpoint: uploads
are validated and processed synchronously; JSON `file_url` bodies spawn
`process_background` on a thread and are acknowledged with 202. -/
def webhook (o : Oracle) (st : St) (req : Req) : Resp × St :=
  match req with
  | .upload filename content =>
    if filename = "" then (⟨400, none, none⟩, st.log (.responded 400))
    else
      let ext := uploadExt filename
      if ext ∈ allowedExts then
        let tmp := tmpBase ++ "." ++ ext
        webhook_inline_run o (st.write tmp content) tmp
      else (⟨400, none, none⟩, st.log (.responded 400))
  | .jsonBody file_url =>
    if pyTruthy file_url then
      (⟨202, some true, none⟩, ((st.log .spawned).log (.responded 202)))
    else (⟨400, none, none⟩, st.log (.responded 400))
  | .empty => (⟨400, none, none⟩, st.log (.responded 400))

/-- `softr_webhook` (lines 317-351), the background-processing endpoint:
saves the upload (without extension validation) or takes the URL, spawns
`process_background`, and acknowledges with 202 immediately. -/
def softr_webhook (_o : Oracle) (st : St) (req : Req) : Resp × St :=
  match req with
  | .upload filename content =>
    if filename = "" then (⟨400, none, none⟩, st.log (.responded 400))
    else
      let ext := uploadExt filename
      let tmp := tmpBase ++ "." ++ ext
      (⟨202, some true, none⟩, ((((st.write tmp content).log .spawned)).log (.responded 202)))
  | .jsonBody file_url =>
    if pyTruthy file_url then
      (⟨202, some true, none⟩, ((st.log .spawned).log (.responded 202)))
    else (⟨400, none, none⟩, st.log (.responded 400))
  | .empty => (⟨400, none, none⟩, st.log (.responded 400))

/-! ## Concrete instances for witnesses and counterexamples -/

/-- A concrete oracle on which every external call succeeds. -/
def oracle0 : Oracle where
  httpGet := fun _ _ => .ok ⟨200, "application/pdf", [1, 2]⟩
  pdfOpen := fun _ => .ok [[7], [8]]
  renderPng := fun b _ => b
  openai := fun _ _ => .ok (chars "[1, 2]")
  createRes := .ok "rec123"
  unlinkFails := fun _ => false

/-- The empty starting state of a run. -/
def st0 : St := ⟨[], []⟩

/-- An oracle whose completion call fails (simulated service outage). -/
def oracleOpenaiFail : Oracle := { oracle0 with openai := fun _ _ => .error "openai down" }

/-- An oracle whose network fetch fails (simulated connection error). -/
def oracleFetchErr : Oracle := { oracle0 with httpGet := fun _ _ => .error "conn" }

/-- A concrete invoice dict with a single present field. -/
def d0 : List (String × PyVal) := [("invoice_number", .vstr "INV-001")]

/-! ## Helper lemmas on the string primitives -/

theorem splitFirst_nil (sep : List Char) : splitFirst sep [] = none := rfl

theorem splitFirst_cons (sep : List Char) (c : Char) (rest : List Char) :
    splitFirst sep (c :: rest) =
      if sep.isPrefixOf (c :: rest) then some ([], List.drop sep.length (c :: rest))
      else (splitFirst sep rest).map fun pr => (c :: pr.1, pr.2) := by
  by_cases hp : sep.isPrefixOf (c :: rest)
  · rw [splitFirst, if_pos hp, if_pos hp]
  · rw [splitFirst, if_neg hp, if_neg hp]
    cases h : splitFirst sep rest with
    | none => rfl
    | some pr => cases pr; rfl

theorem splitFirst_cons_unmatched {sep : List Char} {c : Char} {rest : List Char}
    (h : ¬ sep <+: (c :: rest)) :
    splitFirst sep (c :: rest) = (splitFirst sep rest).map fun pr => (c :: pr.1, pr.2) := by
  rw [splitFirst_cons, if_neg]
  simpa using h

theorem splitFirst_sound {sep : List Char} :
    ∀ {s pre post : List Char}, splitFirst sep s = some (pre, post) → s = pre ++ sep ++ post := by
  intro s
  induction s with
  | nil => intro pre post h; simp [splitFirst] at h
  | cons c rest ih =>
    intro pre post h
    rw [splitFirst_cons] at h
    by_cases hp : sep.isPrefixOf (c :: rest)
    · rw [if_pos hp] at h
      obtain ⟨t, ht⟩ := List.isPrefixOf_iff_prefix.mp hp
      obtain ⟨h1, h2⟩ := Prod.mk.injEq _ _ _ _ ▸ Option.some.inj h
      subst h1
      rw [← ht, List.nil_append]
      rw [← ht] at h2
      rw [← h2, List.drop_left]
    · rw [if_neg hp] at h
      cases hr : splitFirst sep rest with
      | none => rw [hr] at h; simp at h
      | some pr =>
        rw [hr] at h
        obtain ⟨h1, h2⟩ := Prod.mk.injEq _ _ _ _ ▸ Option.some.inj h
        have := ih hr
        cases pr with
        | mk pre' post' =>
          subst h2
          rw [← h1]
          simp only [List.cons_append, List.append_assoc] at this ⊢
          rw [← this]

theorem splitFirst_none_iff {sep : List Char} (hsep : sep ≠ []) :
    ∀ {s : List Char}, splitFirst sep s = none ↔ ∀ t, t <:+ s → ¬ sep <+: t := by
  intro s
  induction s with
  | nil =>
    simp only [splitFirst, true_iff]
    intro t ht hpre
    rw [List.suffix_nil.mp ht] at hpre
    exact hsep (List.prefix_nil.mp hpre)
  | cons c rest ih =>
    rw [splitFirst_cons]
    by_cases hp : sep.isPrefixOf (c :: rest)
    · rw [if_pos hp]
      constructor
      · intro h; simp at h
      · intro h
        have hpre := List.isPrefixOf_iff_prefix.mp hp
        exact absurd hpre (h _ List.suffix_rfl)
    · rw [if_neg hp]
      rw [Option.map_eq_none']
      rw [ih]
      constructor
      · intro h t ht
        rcases List.suffix_cons_iff.mp ht with h1 | h1
        · subst h1
          simpa using hp
        · exact h t h1
      · intro h t ht
        exact h t (List.suffix_cons_iff.mpr (Or.inr ht))

theorem splitFirst_self_append {sep : List Char} (hsep : sep ≠ []) (rest : List Char) :
    splitFirst sep (sep ++ rest) = some ([], rest) := by
  cases sep with
  | nil => exact absurd rfl hsep
  | cons c s' =>
    rw [List.cons_append, splitFirst_cons, if_pos]
    · rw [← List.cons_append, List.drop_left]
    · exact List.isPrefixOf_iff_prefix.mpr (List.prefix_append _ _)

theorem splitFirst_append_eq (sep : List Char) :
    ∀ (x : List Char) {y : List Char},
      (∀ t, t <:+ x → t ≠ [] → ¬ sep <+: (t ++ y)) →
      splitFirst sep (x ++ y) = (splitFirst sep y).map fun pr => (x ++ pr.1, pr.2) := by
  intro x
  induction x with
  | nil =>
    intro y _
    cases h : splitFirst sep y with
    | none => simp [h]
    | some pr => cases pr; simp [h]
  | cons c x' ih =>
    intro y hcond
    rw [List.cons_append, splitFirst_cons_unmatched, ih]
    · cases h : splitFirst sep y with
      | none => simp [h]
      | some pr => cases pr; simp [h]
    · intro t ht hne
      exact hcond t (List.suffix_cons_iff.mpr (Or.inr ht)) hne
    · have := hcond (c :: x') List.suffix_rfl (by simp)
      simpa [List.cons_append] using this

theorem prefix_through_append {α : Type} {c : α} :
    ∀ {sep : List α} (x : List α) {y : List α},
      c ∉ sep → sep <+: x ++ c :: y → sep <+: x := by
  intro sep x
  induction x generalizing sep with
  | nil =>
    intro y hc h
    cases sep with
    | nil => exact List.nil_prefix
    | cons a s' =>
      obtain ⟨ha, _⟩ := List.cons_prefix_cons.mp h
      exact absurd (ha ▸ List.mem_cons_self a s') hc
  | cons d x' ih =>
    intro y hc h
    cases sep with
    | nil => exact List.nil_prefix
    | cons a s' =>
      rw [List.cons_append] at h
      obtain ⟨ha, h2⟩ := List.cons_prefix_cons.mp h
      have hc' : c ∉ s' := fun hm => hc (List.mem_cons_of_mem a hm)
      exact List.cons_prefix_cons.mpr ⟨ha, ih hc' h2⟩

theorem pysplitAux_succ (n : Nat) (sep s : List Char) :
    pysplitAux (n + 1) sep s =
      match splitFirst sep s with
      | none => [s]
      | some (pre, post) => pre :: pysplitAux n sep post := rfl

theorem pysplit_of_none {sep s : List Char} (h : splitFirst sep s = none) :
    pysplit sep s = [s] := by
  rw [pysplit, pysplitAux_succ, h]

theorem length_lt_of_splitFirst {sep s pre post : List Char} (hsep : sep ≠ [])
    (h : splitFirst sep s = some (pre, post)) : post.length < s.length := by
  have := splitFirst_sound h
  subst this
  have : 0 < sep.length := List.length_pos.mpr hsep
  simp only [List.length_append]
  omega

theorem pysplitAux_none {sep s : List Char} (n : Nat) (h : splitFirst sep s = none) :
    pysplitAux (n + 1) sep s = [s] := by
  rw [pysplitAux_succ, h]

theorem pysplitAux_some {sep s pre post : List Char} (n : Nat)
    (h : splitFirst sep s = some (pre, post)) :
    pysplitAux (n + 1) sep s = pre :: pysplitAux n sep post := by
  rw [pysplitAux_succ, h]

theorem pysplitAux_adequate {sep : List Char} (hsep : sep ≠ []) :
    ∀ (n : Nat) (s : List Char) (fuel : Nat), s.length ≤ n → s.length + 1 ≤ fuel →
      pysplitAux fuel sep s = pysplit sep s := by
  intro n
  induction n with
  | zero =>
    intro s fuel hn hf
    have hs : s = [] := List.length_eq_zero.mp (Nat.le_zero.mp hn)
    subst hs
    cases fuel with
    | zero => omega
    | succ f => rw [pysplitAux_none f (splitFirst_nil sep), pysplit_of_none (splitFirst_nil sep)]
  | succ m ihm =>
    intro s fuel hn hf
    cases fuel with
    | zero => omega
    | succ f =>
      cases hs : splitFirst sep s with
      | none => rw [pysplitAux_none f hs, pysplit_of_none hs]
      | some pr =>
        cases pr with
        | mk pre post =>
          have hlt := length_lt_of_splitFirst hsep hs
          rw [pysplitAux_some f hs, pysplit, pysplitAux_some s.length hs]
          rw [ihm post f (by omega) (by omega), ihm post s.length (by omega) (by omega)]

theorem pysplit_of_some {sep s pre post : List Char} (hsep : sep ≠ [])
    (h : splitFirst sep s = some (pre, post)) :
    pysplit sep s = pre :: pysplit sep post := by
  have hlt := length_lt_of_splitFirst hsep h
  rw [pysplit, pysplitAux_some s.length h,
    pysplitAux_adequate hsep s.length post s.length (by omega) (by omega)]

theorem pystrip_cons_ws {c : Char} {s : List Char} (h : isPyWs c = true) :
    pystrip (c :: s) = pystrip s := by
  simp [pystrip, List.dropWhile_cons, h]

theorem pystrip_append_ws {c : Char} {s : List Char} (h : isPyWs c = true) :
    pystrip (s ++ [c]) = pystrip s := by
  by_cases he : (s.dropWhile isPyWs).isEmpty
  · rw [List.isEmpty_iff] at he
    simp [pystrip, List.dropWhile_append, he, h]
  · simp only [pystrip, List.dropWhile_append, he, if_false, Bool.false_eq_true]
    rw [List.reverse_append]
    simp [List.dropWhile_cons, h]

/-! ## Fence-stripping lemmas (claim C2) -/

theorem ticks_ne_nil : ticks ≠ [] := by decide

theorem tickJson_ne_nil : tickJson ≠ [] := by decide

theorem ticks_prefix_tickJson : ticks <+: tickJson := by decide

theorem nl_not_mem_ticks : '\n' ∉ ticks := by decide

theorem nl_not_mem_tickJson : '\n' ∉ tickJson := by decide

theorem no_ticks_suffixes {p : List Char} (hp : occursIn ticks p = false) :
    ∀ t, t <:+ p → ¬ ticks <+: t := by
  have h : splitFirst ticks p = none := by
    cases h : splitFirst ticks p with
    | none => rfl
    | some pr => rw [occursIn, h] at hp; simp at hp
  exact (splitFirst_none_iff ticks_ne_nil).mp h

theorem no_ticks_suffixes_nl {p : List Char} (hp : occursIn ticks p = false) :
    ∀ t, t <:+ ('\n' :: p) → ¬ ticks <+: t := by
  intro t ht hpre
  rcases List.suffix_cons_iff.mp ht with h1 | h1
  · subst h1
    have h0 : ticks <+: [] ++ '\n' :: p := by simpa using hpre
    have h2 := prefix_through_append [] nl_not_mem_ticks h0
    exact ticks_ne_nil (List.prefix_nil.mp h2)
  · exact no_ticks_suffixes hp t h1 hpre

theorem cond_ticks {x y : List Char} (hx : ∀ t, t <:+ x → ¬ ticks <+: t) :
    ∀ t, t <:+ x → t ≠ [] → ¬ ticks <+: (t ++ '\n' :: y) := by
  intro t ht _ hpre
  exact hx t ht (prefix_through_append t nl_not_mem_ticks hpre)

theorem cond_tickJson {x y : List Char} (hx : ∀ t, t <:+ x → ¬ ticks <+: t) :
    ∀ t, t <:+ x → t ≠ [] → ¬ tickJson <+: (t ++ '\n' :: y) := by
  intro t ht _ hpre
  exact hx t ht (prefix_through_append t nl_not_mem_ticks (ticks_prefix_tickJson.trans hpre))

theorem sfJson_end {p : List Char} (hp : occursIn ticks p = false) :
    splitFirst tickJson (('\n' :: p) ++ '\n' :: ticks) = none := by
  rw [splitFirst_append_eq tickJson ('\n' :: p) (cond_tickJson (no_ticks_suffixes_nl hp))]
  have h : splitFirst tickJson ('\n' :: ticks) = none := by decide
  rw [h]
  rfl

theorem sfTicks_end {p : List Char} (hp : occursIn ticks p = false) :
    splitFirst ticks (('\n' :: p) ++ '\n' :: ticks) = some ('\n' :: (p ++ ['\n']), []) := by
  rw [splitFirst_append_eq ticks ('\n' :: p) (cond_ticks (no_ticks_suffixes_nl hp))]
  have h : splitFirst ticks ('\n' :: ticks) = some (['\n'], []) := by decide
  rw [h]
  simp

theorem sfTicks_mid {p : List Char} (hp : occursIn ticks p = false) :
    splitFirst ticks (('\n' :: p) ++ ['\n']) = none := by
  rw [splitFirst_append_eq ticks ('\n' :: p) (cond_ticks (no_ticks_suffixes_nl hp))]
  have h : splitFirst ticks ['\n'] = none := by decide
  rw [h]
  rfl

theorem sfJson_p {p : List Char} (hp : occursIn ticks p = false) :
    splitFirst tickJson p = none := by
  have h0 : splitFirst tickJson (p ++ []) = none := by
    rw [splitFirst_append_eq tickJson p]
    · rw [splitFirst_nil]; rfl
    · intro t ht _ hpre
      rw [List.append_nil] at hpre
      exact no_ticks_suffixes hp t ht (ticks_prefix_tickJson.trans hpre)
  simpa using h0

theorem sfJson_plain {p : List Char} (hp : occursIn ticks p = false) :
    splitFirst tickJson (ticks ++ (('\n' :: p) ++ '\n' :: ticks)) = none := by
  rw [splitFirst_append_eq tickJson ticks]
  · rw [sfJson_end hp]; rfl
  · intro t ht _ hpre
    have h1 : tickJson <+: t ++ '\n' :: (p ++ '\n' :: ticks) := by
      simpa [List.append_assoc] using hpre
    have h2 := prefix_through_append t nl_not_mem_tickJson h1
    have h3 : tickJson.length ≤ t.length := h2.length_le
    have h4 : t.length ≤ ticks.length := ht.length_le
    have h5 : ticks.length = 3 := by decide
    have h6 : tickJson.length = 7 := by decide
    omega

theorem repJson_decomp (p : List Char) :
    repJson p = tickJson ++ (('\n' :: p) ++ '\n' :: ticks) := by
  have h1 : chars "```json\n" = tickJson ++ ['\n'] := by decide
  have h2 : chars "\n```" = '\n' :: ticks := by decide
  rw [repJson, h1, h2]
  simp

theorem repPlain_decomp (p : List Char) :
    repPlain p = ticks ++ (('\n' :: p) ++ '\n' :: ticks) := by
  have h1 : chars "```\n" = ticks ++ ['\n'] := by decide
  have h2 : chars "\n```" = '\n' :: ticks := by decide
  rw [repPlain, h1, h2]
  simp

theorem stripFences_repJson {p : List Char} (hp : occursIn ticks p = false) :
    stripFences (repJson p) = '\n' :: (p ++ ['\n']) := by
  rw [repJson_decomp]
  have hsf1 : splitFirst tickJson (tickJson ++ (('\n' :: p) ++ '\n' :: ticks)) =
      some ([], ('\n' :: p) ++ '\n' :: ticks) := splitFirst_self_append tickJson_ne_nil _
  have hocc : occursIn tickJson (tickJson ++ (('\n' :: p) ++ '\n' :: ticks)) = true := by
    rw [occursIn, hsf1]; rfl
  rw [stripFences, if_pos hocc]
  rw [pysplit_of_some tickJson_ne_nil hsf1, pysplit_of_none (sfJson_end hp)]
  have hidx : pyIdx [[], ('\n' :: p) ++ '\n' :: ticks] 1 = ('\n' :: p) ++ '\n' :: ticks := rfl
  rw [hidx, pysplit_of_some ticks_ne_nil (sfTicks_end hp),
    pysplit_of_none (splitFirst_nil ticks)]
  rfl

theorem stripFences_repPlain {p : List Char} (hp : occursIn ticks p = false) :
    stripFences (repPlain p) = '\n' :: (p ++ ['\n']) := by
  rw [repPlain_decomp]
  have hocc1 : occursIn tickJson (ticks ++ (('\n' :: p) ++ '\n' :: ticks)) = false := by
    rw [occursIn, sfJson_plain hp]; rfl
  have hsf2 : splitFirst ticks (ticks ++ (('\n' :: p) ++ '\n' :: ticks)) =
      some ([], ('\n' :: p) ++ '\n' :: ticks) := splitFirst_self_append ticks_ne_nil _
  have hocc2 : occursIn ticks (ticks ++ (('\n' :: p) ++ '\n' :: ticks)) = true := by
    rw [occursIn, hsf2]; rfl
  rw [stripFences, if_neg (by rw [hocc1]; simp), if_pos hocc2]
  rw [pysplit_of_some ticks_ne_nil hsf2, pysplit_of_some ticks_ne_nil (sfTicks_end hp),
    pysplit_of_none (splitFirst_nil ticks)]
  have hidx : pyIdx [[], '\n' :: (p ++ ['\n']), []] 1 = '\n' :: (p ++ ['\n']) := rfl
  rw [hidx]
  have hmid : splitFirst ticks ('\n' :: (p ++ ['\n'])) = none := by
    have := sfTicks_mid hp
    simpa using this
  rw [pysplit_of_none hmid]
  rfl

theorem stripFences_nofence {p : List Char} (hp : occursIn ticks p = false) :
    stripFences p = p := by
  have h1 : occursIn tickJson p = false := by rw [occursIn, sfJson_p hp]; rfl
  rw [stripFences, if_neg (by rw [h1]; simp), if_neg (by rw [hp]; simp)]

theorem pystrip_nl_wrap (p : List Char) : pystrip ('\n' :: (p ++ ['\n'])) = pystrip p := by
  rw [pystrip_cons_ws (by decide), pystrip_append_ws (by decide)]

/-! ## Claim C2 -/

/-- C2 counterexample: the JSON payload `"```json 1 ```"` (a valid JSON string
literal containing a fence marker) refutes the claim as stated: unfenced, the
parser strips from the payload's own marker and succeeds on the remaining text
`1`; wrapped in a `json`-labeled fence it fails with a parse error, so the three
representations do not produce the same parsed record. -/
theorem c2_counterexample :
    json_valid (pystrip (chars "\"```json 1 ```\"")) = true ∧
    extract_parse (chars "\"```json 1 ```\"") = some (chars "1") ∧
    extract_parse (repJson (chars "\"```json 1 ```\"")) = none :=
  ⟨by decide, by decide, by decide⟩

/-- C2 (amended): for every JSON payload text that contains no fence marker
```` ``` ````, the extraction-response parser produces the same result for the
payload wrapped in a fenced block labeled `json`, wrapped in an unlabeled
fenced block, and unfenced; and for every response text, parsing fails with a
parse error exactly when the remaining text after fence-stripping (and
whitespace stripping) is not valid JSON. -/
theorem c2_fence_agnostic :
    (∀ p : List Char, occursIn ticks p = false →
      extract_parse (repJson p) = extract_parse p ∧
      extract_parse (repPlain p) = extract_parse p) ∧
    (∀ content : List Char,
      (extract_parse content = none ↔ json_valid (pystrip (stripFences content)) = false)) := by
  constructor
  · intro p hp
    have h1 : pystrip (stripFences (repJson p)) = pystrip (stripFences p) := by
      rw [stripFences_repJson hp, stripFences_nofence hp, pystrip_nl_wrap]
    have h2 : pystrip (stripFences (repPlain p)) = pystrip (stripFences p) := by
      rw [stripFences_repPlain hp, stripFences_nofence hp, pystrip_nl_wrap]
    constructor
    · simp only [extract_parse]
      rw [h1]
    · simp only [extract_parse]
      rw [h2]
  · intro content
    simp only [extract_parse]
    cases h : json_valid (pystrip (stripFences content)) with
    | true => simp [h]
    | false => simp [h]

/-- C2 witness: the amended theorem evaluated at the fence-free payload `[1, 2]`. -/
theorem c2_fence_agnostic_witness :
    occursIn ticks (chars "[1, 2]") = false ∧
    extract_parse (repJson (chars "[1, 2]")) = extract_parse (chars "[1, 2]") :=
  ⟨by decide, (c2_fence_agnostic.1 (chars "[1, 2]") (by decide)).1⟩

/-! ## Claim C4 -/

/-- C4 (confirmed): the flattened line-items text is the per-item rendering
`"<description> – Qty: <quantity> × <unit_price> = <amount>"` joined by
newlines in the original item order; no item is dropped (one rendering per
item, head rendering first), and a missing per-item sub-field renders as the
empty-string or zero placeholder rather than omitting the item or sub-field. -/
theorem c4_line_items_rendering :
    items_text [] = "" ∧
    (∀ itm rest, items_text (itm :: rest) =
      renderItem itm ++ (match rest with | [] => "" | _ :: _ => "\n" ++ items_text rest)) ∧
    (∀ items : List (List (String × PyVal)), (items.map renderItem).length = items.length) ∧
    (∀ itm : List (String × PyVal), List.lookup "description" itm = none →
      renderItem itm =
        " – Qty: " ++ pyStr (pyGetD itm "quantity" (.vint 0)) ++ " × " ++
        pyStr (pyGetD itm "unit_price" (.vint 0)) ++ " = " ++
        pyStr (pyGetD itm "amount" (.vint 0))) ∧
    renderItem [] = " – Qty: 0 × 0 = 0" := by
  refine ⟨rfl, ?_, ?_, ?_, by decide⟩
  · intro itm rest
    cases rest with
    | nil => simp [items_text, pyJoin]
    | cons r rs => simp [items_text, pyJoin, String.append_assoc]
  · intro items; simp
  · intro itm h
    simp [renderItem, pyGetD, h, pyStr]

/-- C4 witness: the rendering of an item with every sub-field missing keeps the
item and substitutes the placeholders. -/
theorem c4_line_items_rendering_witness :
    List.lookup "description" ([] : List (String × PyVal)) = none ∧
    renderItem [] =
      " – Qty: " ++ pyStr (pyGetD [] "quantity" (.vint 0)) ++ " × " ++
      pyStr (pyGetD [] "unit_price" (.vint 0)) ++ " = " ++
      pyStr (pyGetD [] "amount" (.vint 0)) :=
  ⟨rfl, c4_line_items_rendering.2.2.2.1 [] rfl⟩

/-! ## Claim C5 -/

theorem pyreplaceAux_succ (n : Nat) (old new s : List Char) :
    pyreplaceAux (n + 1) old new s =
      match splitFirst old s with
      | none => s
      | some (pre, post) => pre ++ new ++ pyreplaceAux n old new post := rfl

/-- C5 (confirmed): `pdf_to_image` fails with the empty-document error exactly
on zero-page PDFs; on a PDF with at least one page it renders exactly one
raster image from the first page only (at the fixed `Matrix(2,2)` upscaling),
regardless of the remaining pages, writing it to the `.pdf`→`.png` renamed
path, which is a new (distinct) transient file for any `.pdf`-named input. -/
theorem c5_pdf_rasterization (o : Oracle) (st : St) (p : String) :
    (o.pdfOpen p = .ok [] → pdf_to_image o st p = (.error "PDF has no pages", st)) ∧
    (∀ pg rest, o.pdfOpen p = .ok (pg :: rest) →
      pdf_to_image o st p =
        (.ok (pyreplaceS p ".pdf" ".png"),
         st.write (pyreplaceS p ".pdf" ".png") (o.renderPng pg (2, 2)))) ∧
    (∀ e, o.pdfOpen p = .error e → pdf_to_image o st p = (.error e, st)) ∧
    (occursIn (chars ".pdf") p.data = true → pyreplaceS p ".pdf" ".png" ≠ p) := by
  refine ⟨?_, ?_, ?_, ?_⟩
  · intro h; simp [pdf_to_image, h]
  · intro pg rest h; simp [pdf_to_image, h]
  · intro e h; simp [pdf_to_image, h]
  · intro hocc heq
    obtain ⟨pr, hsf⟩ := Option.isSome_iff_exists.mp hocc
    obtain ⟨pre, post⟩ := pr
    have hdata : pyreplace p.data (chars ".pdf") (chars ".png") = p.data := by
      have := congrArg String.data heq
      simpa [pyreplaceS, chars] using this
    rw [pyreplace, pyreplaceAux_succ] at hdata
    rw [hsf] at hdata
    have hsound : p.data = pre ++ chars ".pdf" ++ post := splitFirst_sound hsf
    rw [hsound] at hdata
    simp only [List.append_assoc] at hdata
    have h2 := List.append_cancel_left hdata
    have e1 : chars ".png" = '.' :: 'p' :: 'n' :: 'g' :: [] := by decide
    have e2 : chars ".pdf" = '.' :: 'p' :: 'd' :: 'f' :: [] := by decide
    rw [e1, e2] at h2
    simp at h2

/-- C5 witness: the theorem evaluated on a concrete two-page PDF at the
temp path `/tmp/invoice.pdf`. -/
theorem c5_pdf_rasterization_witness :
    oracle0.pdfOpen "/tmp/invoice.pdf" = .ok [[7], [8]] ∧
    pdf_to_image oracle0 st0 "/tmp/invoice.pdf" =
      (.ok (pyreplaceS "/tmp/invoice.pdf" ".pdf" ".png"),
       st0.write (pyreplaceS "/tmp/invoice.pdf" ".pdf" ".png") (oracle0.renderPng [7] (2, 2))) ∧
    occursIn (chars ".pdf") ("/tmp/invoice.pdf").data = true ∧
    pyreplaceS "/tmp/invoice.pdf" ".pdf" ".png" ≠ "/tmp/invoice.pdf" :=
  ⟨rfl, (c5_pdf_rasterization oracle0 st0 "/tmp/invoice.pdf").2.1 [7] [[8]] rfl,
   by decide, (c5_pdf_rasterization oracle0 st0 "/tmp/invoice.pdf").2.2.2 (by decide)⟩

/-! ## Record-key lemmas (claims C3 and C9) -/

theorem map_filter_fst {α β γ : Type} (g : β → γ) (p : γ → Bool) :
    ∀ l : List (α × β),
      ((l.map fun cf => (cf.1, g cf.2)).filter fun kv => p kv.2).map Prod.fst =
      (l.filter fun cf => p (g cf.2)).map Prod.fst := by
  intro l
  induction l with
  | nil => rfl
  | cons x xs ih =>
    obtain ⟨x1, x2⟩ := x
    simp only [List.map_cons, List.filter_cons]
    by_cases hp : p (g x2) = true
    · simp [hp, ih]
    · simp [hp, ih]

theorem buildRecord_keys (d : List (String × PyVal)) (items : List (List (String × PyVal)))
    (src : Option String) :
    (buildRecord d items src).map Prod.fst =
      (topFieldMap.filter fun cf => !(pyGet d cf.2).isNone).map Prod.fst ++
      ["Line Items", "Status"] ++
      (if pyTruthy src then ["Source File URL"] else []) := by
  have hA : buildRecord d items src =
      ((topFieldMap.map (fun cf => (cf.1, pyGet d cf.2)) ++
        [("Line Items", PyVal.vstr (items_text items)), ("Status", PyVal.vstr "Extracted")] ++
        (if pyTruthy src then [("Source File URL", PyVal.vstr (src.getD ""))] else [])).filter
        fun kv => !kv.2.isNone) := rfl
  rw [hA, List.filter_append, List.filter_append, List.map_append, List.map_append]
  congr 1
  · rw [map_filter_fst (pyGet d) (fun v => !v.isNone) topFieldMap]
    simp [PyVal.isNone]
  · cases hsrc : pyTruthy src <;> simp [PyVal.isNone]

theorem topFieldMap_fst_nodup : (topFieldMap.map Prod.fst).Nodup := by decide

theorem topFieldMap_cols_ne {col fld : String} (h : (col, fld) ∈ topFieldMap) :
    col ≠ "Line Items" ∧ col ≠ "Status" ∧ col ≠ "Source File URL" := by
  fin_cases h <;> exact ⟨by decide, by decide, by decide⟩

theorem mem_map_fst_filter_nodup {α β : Type} [DecidableEq α] :
    ∀ {l : List (α × β)}, (l.map Prod.fst).Nodup →
      ∀ {a : α} {b : β}, (a, b) ∈ l → ∀ p : α × β → Bool,
        (a ∈ (l.filter p).map Prod.fst ↔ p (a, b) = true) := by
  intro l
  induction l with
  | nil =>
    intro _ a b hmem _
    simp at hmem
  | cons x xs ih =>
    intro hn a b hmem p
    obtain ⟨x1, x2⟩ := x
    rw [List.map_cons, List.nodup_cons] at hn
    obtain ⟨hx1, hxs⟩ := hn
    rcases List.mem_cons.mp hmem with heq | hmem'
    · cases heq
      rw [List.filter_cons]
      by_cases hp : p (a, b) = true
      · simp [hp]
      · rw [if_neg hp]
        constructor
        · intro h
          obtain ⟨kv, hkv, hfst⟩ := List.mem_map.mp h
          have : kv ∈ xs := List.mem_of_mem_filter hkv
          exact absurd (List.mem_map.mpr ⟨kv, this, hfst⟩) hx1
        · intro h
          exact absurd h hp
    · have amem : a ∈ xs.map Prod.fst := List.mem_map.mpr ⟨(a, b), hmem', rfl⟩
      have hne : x1 ≠ a := fun h => hx1 (h ▸ amem)
      rw [List.filter_cons]
      by_cases hp : p (x1, x2) = true
      · rw [if_pos hp, List.map_cons, List.mem_cons,
          or_iff_right (fun h => hne h.symm)]
        exact ih hxs hmem' p
      · rw [if_neg hp]
        exact ih hxs hmem' p

/-! ## Claim C3 -/

/-- C3 counterexample: `save_to_airtable` with a supplied but empty source URL
(`source_file_url = ""`) omits the `Source File URL` column, because the guard
`if source_file_url:` is Python truthiness, refuting "the source-URL column
exactly when a source URL is supplied". -/
theorem c3_counterexample :
    save_to_airtable d0 (some "") = .ok (buildRecord d0 [] (some "")) ∧
    (buildRecord d0 [] (some "")).map Prod.fst = ["Invoice Number", "Line Items", "Status"] ∧
    "Source File URL" ∉ (buildRecord d0 [] (some "")).map Prod.fst :=
  ⟨rfl, by decide, by decide⟩

/-- C3 (amended): the keys of the written row are exactly the top-level fields
whose value is present (not `None`), plus the always-present `Line Items` and
`Status` columns, plus `Source File URL` exactly when the supplied source URL
is truthy (non-`None` and non-empty); and no `None` value is ever written. -/
theorem c3_record_keys (d : List (String × PyVal)) (src : Option String)
    (items : List (List (String × PyVal))) (hitems : getItems d = .ok items) :
    save_to_airtable d src = .ok (buildRecord d items src) ∧
    ((buildRecord d items src).map Prod.fst =
      (topFieldMap.filter fun cf => !(pyGet d cf.2).isNone).map Prod.fst ++
      ["Line Items", "Status"] ++
      (if pyTruthy src then ["Source File URL"] else [])) ∧
    (∀ kv ∈ buildRecord d items src, kv.2.isNone = false) := by
  refine ⟨by simp [save_to_airtable, hitems], buildRecord_keys d items src, ?_⟩
  intro kv hkv
  simp only [buildRecord] at hkv
  have := (List.mem_filter.mp hkv).2
  simpa using this

/-- C3 witness: the amended theorem evaluated at a one-field invoice and a
truthy source URL. -/
theorem c3_record_keys_witness :
    getItems d0 = .ok [] ∧
    save_to_airtable d0 (some "http://x/i.pdf") = .ok (buildRecord d0 [] (some "http://x/i.pdf")) :=
  ⟨rfl, (c3_record_keys d0 (some "http://x/i.pdf") [] rfl).1⟩

/-! ## Claim C9 -/

/-- C9 (confirmed): a top-level field is omitted from the written row exactly
when its value is `None`; an empty-string, zero, or `false` value is still
written, since the filter removes only `None`-valued entries. -/
theorem c9_none_filter (d : List (String × PyVal)) (src : Option String)
    (items : List (List (String × PyVal))) (col fld : String)
    (hmem : (col, fld) ∈ topFieldMap) :
    (col ∈ (buildRecord d items src).map Prod.fst ↔ (pyGet d fld).isNone = false) ∧
    ((pyGet d fld = .vstr "" ∨ pyGet d fld = .vint 0 ∨ pyGet d fld = .vbool false) →
      col ∈ (buildRecord d items src).map Prod.fst) := by
  have hiff : col ∈ (buildRecord d items src).map Prod.fst ↔ (pyGet d fld).isNone = false := by
    rw [buildRecord_keys, List.mem_append, List.mem_append]
    obtain ⟨h1, h2, h3⟩ := topFieldMap_cols_ne hmem
    have hfil := mem_map_fst_filter_nodup topFieldMap_fst_nodup hmem
      (fun cf => !(pyGet d cf.2).isNone)
    constructor
    · rintro ((h | h) | h)
      · have := hfil.mp h
        simpa using this
      · rcases List.mem_cons.mp h with h | h
        · exact absurd h h1
        · rcases List.mem_cons.mp h with h | h
          · exact absurd h h2
          · exact absurd h (List.not_mem_nil col)
      · by_cases hsrc : pyTruthy src = true
        · rw [if_pos hsrc] at h
          rcases List.mem_cons.mp h with h | h
          · exact absurd h h3
          · exact absurd h (List.not_mem_nil col)
        · rw [if_neg hsrc] at h
          exact absurd h (List.not_mem_nil col)
    · intro h
      exact Or.inl (Or.inl (hfil.mpr (by simpa using h)))
  refine ⟨hiff, ?_⟩
  intro h
  rcases h with h | h | h <;> (rw [hiff, h]; rfl)

/-- C9 witness: a zero-valued `subtotal` is written. -/
theorem c9_none_filter_witness :
    ("Subtotal", "subtotal") ∈ topFieldMap ∧
    pyGet [("subtotal", PyVal.vint 0)] "subtotal" = .vint 0 ∧
    "Subtotal" ∈ (buildRecord [("subtotal", PyVal.vint 0)] [] none).map Prod.fst :=
  ⟨by decide, rfl,
   (c9_none_filter [("subtotal", PyVal.vint 0)] none [] "Subtotal" "subtotal"
     (by decide)).2 (Or.inr (Or.inl rfl))⟩

/-! ## State and control-flow lemmas (claims C1, C6, C7, C8, C10) -/

@[simp] theorem St.events_write (st : St) (p : String) (b : List Nat) :
    (st.write p b).events = st.events := rfl

@[simp] theorem St.events_removeFile (st : St) (p : String) :
    (st.removeFile p).events = st.events := rfl

@[simp] theorem St.files_log (st : St) (e : Ev) : (st.log e).files = st.files := rfl

@[simp] theorem St.events_log (st : St) (e : Ev) : (st.log e).events = st.events ++ [e] := rfl

@[simp] theorem St.files_write (st : St) (p : String) (b : List Nat) :
    (st.write p b).files = (p, b) :: st.files.filter (fun f => f.1 != p) := rfl

@[simp] theorem St.files_removeFile (st : St) (p : String) :
    (st.removeFile p).files = st.files.filter (fun f => f.1 != p) := rfl

@[simp] theorem St.readFile_write_self (st : St) (p : String) (b : List Nat) :
    (st.write p b).readFile p = some b := by
  simp [St.readFile, St.write]

theorem pyTruthy_some {u : String} (h : u ≠ "") : pyTruthy (some u) = true := by
  simp [pyTruthy, h]

theorem not_hasFile_forall {st : St} {p : String} (h : st.hasFile p = false) :
    ∀ f ∈ st.files, (f.1 != p) = true := by
  intro f hf
  rw [St.hasFile, List.any_eq_false] at h
  simpa [bne] using h f hf

theorem filter_of_not_hasFile {st : St} {p : String} (h : st.hasFile p = false) :
    st.files.filter (fun f => f.1 != p) = st.files :=
  List.filter_eq_self.mpr (not_hasFile_forall h)

theorem cleanupPng_events (o : Oracle) (st : St) (tp : String) :
    (cleanupPng o st tp).events = st.events := by
  rw [cleanupPng]
  split
  · split <;> rfl
  · rfl

theorem cleanup_events (o : Oracle) (st : St) (t : Option String) :
    (cleanup o st t).events = st.events := by
  cases t with
  | none => rfl
  | some tp =>
    rw [cleanup]
    split
    · split
      · rfl
      · exact cleanupPng_events o _ tp
    · exact cleanupPng_events o st tp

theorem cleanupPng_files_ok {o : Oracle} (hnf : ∀ q, o.unlinkFails q = false) (st : St)
    (tp : String) :
    (cleanupPng o st tp).files =
      st.files.filter fun f => f.1 != pyreplaceS tp ".pdf" ".png" := by
  rw [cleanupPng]
  by_cases h : st.hasFile (pyreplaceS tp ".pdf" ".png") = true
  · rw [if_pos h, hnf]
    rfl
  · rw [if_neg h]
    rw [filter_of_not_hasFile (Bool.not_eq_true _ ▸ h)]

theorem cleanup_files_ok {o : Oracle} (hnf : ∀ q, o.unlinkFails q = false) (st : St)
    (tp : String) :
    (cleanup o st (some tp)).files =
      st.files.filter fun f => f.1 != tp && f.1 != pyreplaceS tp ".pdf" ".png" := by
  rw [cleanup]
  by_cases h : st.hasFile tp = true
  · rw [if_pos h, hnf, if_neg (by simp), cleanupPng_files_ok hnf]
    rw [St.files_removeFile, List.filter_filter]
    exact List.filter_congr fun f _ => by
      cases hfp : (f.1 != pyreplaceS tp ".pdf" ".png") <;> cases hft : (f.1 != tp) <;> rfl
  · rw [if_neg h, cleanupPng_files_ok hnf]
    refine List.filter_congr fun f hf => ?_
    have := not_hasFile_forall (Bool.not_eq_true _ ▸ h) f hf
    rw [this]
    cases hfp : (f.1 != pyreplaceS tp ".pdf" ".png") <;> rfl

theorem create_row_files (o : Oracle) (st : St) : ((create_row o st).2).files = st.files := by
  rw [create_row]
  cases o.createRes <;> rfl

theorem create_row_events (o : Oracle) (st : St) :
    ((create_row o st).2).events = st.events ∨
    ∃ id, o.createRes = .ok id ∧ ((create_row o st).2).events = st.events ++ [Ev.rowCreated id] := by
  rw [create_row]
  cases h : o.createRes with
  | error e => exact Or.inl rfl
  | ok id => exact Or.inr ⟨id, rfl, rfl⟩

theorem extract_files (o : Oracle) (st : St) (tmp : String) :
    ((extract_invoice_data o st tmp).2).files = st.files ∨
    ∃ b, ((extract_invoice_data o st tmp).2).files =
      (pyreplaceS tmp ".pdf" ".png", b) ::
        st.files.filter fun f => f.1 != pyreplaceS tmp ".pdf" ".png" := by
  rw [extract_invoice_data]
  by_cases hpdf : pyEndsWith (lowerS tmp) ".pdf" = true
  · rw [if_pos hpdf, pdf_to_image]
    cases hop : o.pdfOpen tmp with
    | error e => exact Or.inl rfl
    | ok pages =>
      cases pages with
      | nil => exact Or.inl rfl
      | cons pg rest =>
        dsimp only
        refine Or.inr ⟨o.renderPng pg (2, 2), ?_⟩
        rw [St.readFile_write_self]
        dsimp only
        cases ho : o.openai (mimeOf (lastExt (pyreplaceS tmp ".pdf" ".png")))
            (o.renderPng pg (2, 2)) with
        | error e => rfl
        | ok content =>
          dsimp only
          cases hp : extract_parse content <;> rfl
  · rw [if_neg hpdf]
    dsimp only
    refine Or.inl ?_
    cases hr : st.readFile tmp with
    | none => rfl
    | some bytes =>
      dsimp only
      cases ho : o.openai (mimeOf (lastExt tmp)) bytes with
      | error e => rfl
      | ok content =>
        dsimp only
        cases hp : extract_parse content <;> rfl

theorem extract_events (o : Oracle) (st : St) (tmp : String) :
    ((extract_invoice_data o st tmp).2).events = st.events ∨
    ((extract_invoice_data o st tmp).2).events = st.events ++ [Ev.openaiCalled] := by
  rw [extract_invoice_data]
  by_cases hpdf : pyEndsWith (lowerS tmp) ".pdf" = true
  · rw [if_pos hpdf, pdf_to_image]
    cases hop : o.pdfOpen tmp with
    | error e => exact Or.inl rfl
    | ok pages =>
      cases pages with
      | nil => exact Or.inl rfl
      | cons pg rest =>
        dsimp only
        rw [St.readFile_write_self]
        dsimp only
        refine Or.inr ?_
        cases ho : o.openai (mimeOf (lastExt (pyreplaceS tmp ".pdf" ".png")))
            (o.renderPng pg (2, 2)) with
        | error e => rfl
        | ok content =>
          dsimp only
          cases hp : extract_parse content <;> rfl
  · rw [if_neg hpdf]
    dsimp only
    cases hr : st.readFile tmp with
    | none => exact Or.inl rfl
    | some bytes =>
      dsimp only
      refine Or.inr ?_
      cases ho : o.openai (mimeOf (lastExt tmp)) bytes with
      | error e => rfl
      | ok content =>
        dsimp only
        cases hp : extract_parse content <;> rfl

theorem cleanup_after_extract {o : Oracle} (hnf : ∀ q, o.unlinkFails q = false)
    {st st1 : St} {tmp : String}
    (hf : st1.files = st.files ∨ ∃ b, st1.files = (pyreplaceS tmp ".pdf" ".png", b) ::
      st.files.filter fun f => f.1 != pyreplaceS tmp ".pdf" ".png") :
    (cleanup o st1 (some tmp)).files =
      st.files.filter fun f => f.1 != tmp && f.1 != pyreplaceS tmp ".pdf" ".png" := by
  rw [cleanup_files_ok hnf]
  rcases hf with hf | ⟨b, hf⟩
  · rw [hf]
  · rw [hf, List.filter_cons]
    have hb : ((pyreplaceS tmp ".pdf" ".png", b).1 != tmp &&
        (pyreplaceS tmp ".pdf" ".png", b).1 != pyreplaceS tmp ".pdf" ".png") = false := by
      simp
    rw [hb, if_neg (by simp), List.filter_filter]
    exact List.filter_congr fun f _ => by
      cases h1 : (f.1 != tmp) <;> cases h2 : (f.1 != pyreplaceS tmp ".pdf" ".png") <;> rfl

theorem inline_run_files {o : Oracle} (hnf : ∀ q, o.unlinkFails q = false) (st : St)
    (tmp : String) :
    (webhook_inline_run o st tmp).2.files =
      st.files.filter fun f => f.1 != tmp && f.1 != pyreplaceS tmp ".pdf" ".png" := by
  rcases hex : extract_invoice_data o st tmp with ⟨res, st1⟩
  have hf := extract_files o st tmp
  rw [hex] at hf
  rw [webhook_inline_run, hex]
  cases res with
  | error e =>
    dsimp only
    simp only [St.files_log]
    exact cleanup_after_extract hnf hf
  | ok t =>
    dsimp only
    rw [create_row]
    cases hc : o.createRes with
    | error e =>
      dsimp only
      simp only [St.files_log]
      exact cleanup_after_extract hnf hf
    | ok id =>
      dsimp only
      simp only [St.files_log]
      exact cleanup_after_extract hnf hf

theorem inline_run_spec (o : Oracle) (st : St) (tmp : String) :
    ∃ evs : List Ev,
      (webhook_inline_run o st tmp).2.events = st.events ++ evs ∧
      evs.getLast? = some (Ev.responded (webhook_inline_run o st tmp).1.status) ∧
      Ev.spawned ∉ evs ∧
      (∀ id, Ev.rowCreated id ∈ evs → o.createRes = .ok id) ∧
      ((webhook_inline_run o st tmp).1.status = 200 →
        (∃ id, Ev.rowCreated id ∈ evs) ∧
        (webhook_inline_run o st tmp).1.success = some true ∧
        (webhook_inline_run o st tmp).1.record_id.isSome = true) ∧
      ((webhook_inline_run o st tmp).1.status ≠ 200 →
        (webhook_inline_run o st tmp).1 = ⟨500, some false, none⟩) := by
  rcases hex : extract_invoice_data o st tmp with ⟨res, st1⟩
  have he := extract_events o st tmp
  rw [hex] at he
  dsimp only at he
  rw [webhook_inline_run, hex]
  cases res with
  | error e =>
    dsimp only
    rcases he with he | he
    · refine ⟨[Ev.responded 500], ?_, rfl, by simp, by intro id h; simp at h,
        by intro h; exact absurd h (by decide), fun _ => rfl⟩
      simp [cleanup_events, he]
    · refine ⟨[Ev.openaiCalled, Ev.responded 500], ?_, rfl, by simp, by intro id h; simp at h,
        by intro h; exact absurd h (by decide), fun _ => rfl⟩
      simp [cleanup_events, he]
  | ok t =>
    dsimp only
    rw [create_row]
    cases hc : o.createRes with
    | error er =>
      dsimp only
      rcases he with he | he
      · refine ⟨[Ev.responded 500], ?_, rfl, by simp, by intro id h; simp at h,
          by intro h; exact absurd h (by decide), fun _ => rfl⟩
        simp [cleanup_events, he]
      · refine ⟨[Ev.openaiCalled, Ev.responded 500], ?_, rfl, by simp, by intro id h; simp at h,
          by intro h; exact absurd h (by decide), fun _ => rfl⟩
        simp [cleanup_events, he]
    | ok id =>
      dsimp only
      rcases he with he | he
      · refine ⟨[Ev.rowCreated id, Ev.responded 200], ?_, rfl, by simp, ?_, ?_,
          fun h => absurd rfl h⟩
        · simp [cleanup_events, he]
        · intro id' hmem
          rcases List.mem_cons.mp hmem with h | h
          · cases h; exact hc ▸ rfl
          · simp at h
        · intro _
          exact ⟨⟨id, List.mem_cons_self _ _⟩, rfl, rfl⟩
      · refine ⟨[Ev.openaiCalled, Ev.rowCreated id, Ev.responded 200], ?_, rfl, by simp, ?_, ?_,
          fun h => absurd rfl h⟩
        · simp [cleanup_events, he]
        · intro id' hmem
          rcases List.mem_cons.mp hmem with h | h
          · cases h
          · rcases List.mem_cons.mp h with h | h
            · cases h; exact hc ▸ rfl
            · simp at h
        · intro _
          exact ⟨⟨id, List.mem_cons_of_mem _ (List.mem_cons_self _ _)⟩, rfl, rfl⟩

theorem webhook_upload_empty (o : Oracle) (st : St) (c : List Nat) :
    webhook o st (.upload "" c) = (⟨400, none, none⟩, st.log (.responded 400)) := by
  rw [webhook]
  rw [if_pos rfl]

theorem webhook_upload_invalid (o : Oracle) (st : St) {fn : String} (c : List Nat)
    (h1 : fn ≠ "") (h2 : uploadExt fn ∉ allowedExts) :
    webhook o st (.upload fn c) = (⟨400, none, none⟩, st.log (.responded 400)) := by
  rw [webhook]
  dsimp only
  rw [if_neg h1, if_neg h2]

theorem webhook_upload_valid (o : Oracle) (st : St) {fn : String} (c : List Nat)
    (h1 : fn ≠ "") (h2 : uploadExt fn ∈ allowedExts) :
    webhook o st (.upload fn c) =
      webhook_inline_run o (st.write (tmpBase ++ "." ++ uploadExt fn) c)
        (tmpBase ++ "." ++ uploadExt fn) := by
  rw [webhook]
  dsimp only
  rw [if_neg h1, if_pos h2]

theorem webhook_json_truthy (o : Oracle) (st : St) {fu : Option String}
    (h : pyTruthy fu = true) :
    webhook o st (.jsonBody fu) =
      (⟨202, some true, none⟩, (st.log .spawned).log (.responded 202)) := by
  rw [webhook]
  rw [if_pos h]

theorem webhook_json_falsy (o : Oracle) (st : St) {fu : Option String}
    (h : pyTruthy fu = false) :
    webhook o st (.jsonBody fu) = (⟨400, none, none⟩, st.log (.responded 400)) := by
  rw [webhook]
  rw [if_neg (by rw [h]; simp)]

theorem softr_upload_eq (o : Oracle) (st : St) {fn : String} (c : List Nat) (h1 : fn ≠ "") :
    softr_webhook o st (.upload fn c) =
      (⟨202, some true, none⟩,
        (((st.write (tmpBase ++ "." ++ uploadExt fn) c).log .spawned)).log (.responded 202)) := by
  rw [softr_webhook]
  dsimp only
  rw [if_neg h1]

theorem process_background_eq (o : Oracle) (st : St) (fp fu : Option String) :
    process_background o st fp fu =
      cleanup o (pb_try o st fp fu).2 (pb_try o st fp fu).1 := by
  rw [process_background]

theorem pb_try_none_eq (o : Oracle) (st : St) {fp fu : Option String}
    (hfu : pyTruthy fu = false) (hfp : pyTruthy fp = false) :
    pb_try o st fp fu = (none, st) := by
  rw [pb_try, if_neg (by rw [hfu]; simp), if_neg (by rw [hfp]; simp)]

theorem pb_try_file_eq (o : Oracle) (st : St) {fu : Option String} {p : String}
    (hfu : pyTruthy fu = false) (hp : p ≠ "") :
    pb_try o st (some p) fu = pb_run o st p := by
  rw [pb_try, if_neg (by rw [hfu]; simp), if_pos (pyTruthy_some hp)]
  rfl

theorem pb_try_fetch_error (o : Oracle) (st : St) (fp : Option String) {u : String}
    (hu : u ≠ "") {e : String} (hf : o.httpGet httpTimeout u = .error e) :
    pb_try o st fp (some u) = (none, st.log (.fetched httpTimeout u)) := by
  rw [pb_try, if_pos (pyTruthy_some hu)]
  dsimp only [Option.getD]
  rw [hf]

theorem pb_try_fetch_bad (o : Oracle) (st : St) (fp : Option String) {u : String}
    (hu : u ≠ "") {r : HttpResp} (hf : o.httpGet httpTimeout u = .ok r)
    (h4 : 400 ≤ r.status) (h6 : r.status < 600) :
    pb_try o st fp (some u) = (none, st.log (.fetched httpTimeout u)) := by
  rw [pb_try, if_pos (pyTruthy_some hu)]
  dsimp only [Option.getD]
  rw [hf]
  dsimp only
  rw [if_pos ⟨h4, h6⟩]

theorem pb_try_fetch_ok (o : Oracle) (st : St) (fp : Option String) {u : String}
    (hu : u ≠ "") {r : HttpResp} (hf : o.httpGet httpTimeout u = .ok r)
    (hgood : ¬(400 ≤ r.status ∧ r.status < 600)) :
    pb_try o st fp (some u) =
      pb_run o ((st.log (.fetched httpTimeout u)).write
        (tmpBase ++ "." ++ urlExt r.contentType u) r.body)
        (tmpBase ++ "." ++ urlExt r.contentType u) := by
  rw [pb_try, if_pos (pyTruthy_some hu)]
  dsimp only [Option.getD]
  rw [hf]
  dsimp only
  rw [if_neg hgood]

theorem pb_run_fst (o : Oracle) (st : St) (tmp : String) :
    (pb_run o st tmp).1 = some tmp := by
  rw [pb_run]
  rcases hex : extract_invoice_data o st tmp with ⟨res, st1⟩
  cases res with
  | error e => rfl
  | ok t => rfl

theorem pb_run_files (o : Oracle) (st : St) (tmp : String) :
    ((pb_run o st tmp).2).files = st.files ∨
    ∃ b, ((pb_run o st tmp).2).files =
      (pyreplaceS tmp ".pdf" ".png", b) ::
        st.files.filter fun f => f.1 != pyreplaceS tmp ".pdf" ".png" := by
  rw [pb_run]
  rcases hex : extract_invoice_data o st tmp with ⟨res, st1⟩
  have hf := extract_files o st tmp
  rw [hex] at hf
  dsimp only at hf
  cases res with
  | error e => exact hf
  | ok t =>
    dsimp only
    rcases hcr : create_row o st1 with ⟨r2, st2⟩
    have h2 : st2.files = st1.files := by
      have := create_row_files o st1
      rw [hcr] at this
      exact this
    dsimp only
    rw [h2]
    exact hf

theorem pb_cleanup_files {o : Oracle} (hnf : ∀ q, o.unlinkFails q = false) (st : St)
    (tmp : String) :
    (cleanup o (pb_run o st tmp).2 (pb_run o st tmp).1).files =
      st.files.filter fun f => f.1 != tmp && f.1 != pyreplaceS tmp ".pdf" ".png" := by
  rw [pb_run_fst]
  exact cleanup_after_extract hnf (pb_run_files o st tmp)

theorem tmp_name_ne_empty (ext : String) : tmpBase ++ "." ++ ext ≠ "" := by
  intro h
  have := congrArg String.length h
  simp [String.length_append, tmpBase] at this
  exact absurd this.1 (by decide)

/-! ## Claim C6 -/

/-- C6 (confirmed): a URL-sourced document is tagged PDF exactly when the
response's declared content type contains `pdf` or the lowercased URL ends in
`.pdf`, and `jpg` otherwise; the fetch carries the bounded 30-second timeout;
and a failed fetch or a 4xx/5xx status aborts the run after the fetch event
(no file is kept, no extraction, no row). -/
theorem c6_url_format_tag :
    (∀ ct url : String,
      (urlExt ct url = "pdf" ↔
        (occursIn (chars "pdf") ct.data || pyEndsWith (lowerS url) ".pdf") = true) ∧
      ((occursIn (chars "pdf") ct.data || pyEndsWith (lowerS url) ".pdf") = false →
        urlExt ct url = "jpg")) ∧
    httpTimeout = 30 ∧
    (∀ (o : Oracle) (u e : String), u ≠ "" → o.httpGet httpTimeout u = .error e →
      process_background o st0 none (some u) = ⟨[], [.fetched httpTimeout u]⟩) ∧
    (∀ (o : Oracle) (u : String) (r : HttpResp), u ≠ "" → o.httpGet httpTimeout u = .ok r →
      400 ≤ r.status → r.status < 600 →
      process_background o st0 none (some u) = ⟨[], [.fetched httpTimeout u]⟩) ∧
    (∀ (o : Oracle) (u : String) (r : HttpResp), u ≠ "" → o.httpGet httpTimeout u = .ok r →
      ¬(400 ≤ r.status ∧ r.status < 600) →
      pb_try o st0 none (some u) =
        pb_run o ((st0.log (.fetched httpTimeout u)).write
          (tmpBase ++ "." ++ urlExt r.contentType u) r.body)
          (tmpBase ++ "." ++ urlExt r.contentType u)) := by
  refine ⟨?_, rfl, ?_, ?_, ?_⟩
  · intro ct url
    constructor
    · rw [urlExt]
      by_cases h : (occursIn (chars "pdf") ct.data || pyEndsWith (lowerS url) ".pdf") = true
      · rw [if_pos h]
        simp [h]
      · rw [if_neg h]
        constructor
        · intro hj; exact absurd hj (by decide)
        · intro ht; exact absurd ht h
    · intro h
      rw [urlExt, if_neg (by rw [h]; simp)]
  · intro o u e hu hf
    rw [process_background_eq, pb_try_fetch_error o st0 none hu hf]
    rfl
  · intro o u r hu hf h4 h6
    rw [process_background_eq, pb_try_fetch_bad o st0 none hu hf h4 h6]
    rfl
  · intro o u r hu hf hgood
    exact pb_try_fetch_ok o st0 none hu hf hgood

/-- C6 witness: the theorem evaluated on a concrete failing fetch and on the
format-tag characterization at a PDF content type. -/
theorem c6_url_format_tag_witness :
    ("http://x" : String) ≠ "" ∧
    oracleFetchErr.httpGet httpTimeout "http://x" = .error "conn" ∧
    process_background oracleFetchErr st0 none (some "http://x") =
      ⟨[], [.fetched httpTimeout "http://x"]⟩ ∧
    urlExt "application/pdf" "http://x" = "pdf" :=
  ⟨by decide, rfl,
   c6_url_format_tag.2.2.1 oracleFetchErr "http://x" "conn" (by decide) rfl,
   ((c6_url_format_tag.1 "application/pdf" "http://x").1).mpr (by decide)⟩

/-! ## Claim C1 -/

/-- C1 counterexample: a JSON `file_url` submission to the inline-processing
endpoint `/webhook` is acknowledged with 202 immediately after spawning a
background thread — the response precedes pipeline completion and carries no
extracted record or store record identifier, refuting the claim for the
JSON-body case. -/
theorem c1_counterexample :
    webhook oracle0 st0 (.jsonBody (some "http://x/i.pdf")) =
      (⟨202, some true, none⟩, ⟨[], [Ev.spawned, Ev.responded 202]⟩) := by
  decide

/-- C1 (amended): multipart uploads to the inline endpoint are answered only
after the pipeline has completed on the caller's thread — the response event
comes last, nothing is spawned, and a 200 carries a store record identifier —
while JSON `file_url` submissions are detached: the endpoint spawns background
processing and responds 202 at once, before pipeline completion. -/
theorem c1_inline_vs_detached :
    (∀ (o : Oracle) (st : St) (fn : String) (c : List Nat),
      ∃ evs : List Ev,
        (webhook o st (.upload fn c)).2.events = st.events ++ evs ∧
        evs.getLast? = some (Ev.responded (webhook o st (.upload fn c)).1.status) ∧
        Ev.spawned ∉ evs ∧
        ((webhook o st (.upload fn c)).1.status = 200 →
          (∃ id, Ev.rowCreated id ∈ evs) ∧
          (webhook o st (.upload fn c)).1.success = some true ∧
          (webhook o st (.upload fn c)).1.record_id.isSome = true)) ∧
    (∀ (o : Oracle) (st : St) (fu : Option String), pyTruthy fu = true →
      webhook o st (.jsonBody fu) =
        (⟨202, some true, none⟩, (st.log .spawned).log (.responded 202))) := by
  constructor
  · intro o st fn c
    by_cases h1 : fn = ""
    · subst h1
      rw [webhook_upload_empty]
      exact ⟨[Ev.responded 400], rfl, rfl, by simp, by intro h; simp at h⟩
    by_cases h2 : uploadExt fn ∈ allowedExts
    · rw [webhook_upload_valid o st c h1 h2]
      obtain ⟨evs, hev, hlast, hsp, _, h200, _⟩ :=
        inline_run_spec o (st.write (tmpBase ++ "." ++ uploadExt fn) c)
          (tmpBase ++ "." ++ uploadExt fn)
      exact ⟨evs, by simpa using hev, hlast, hsp, h200⟩
    · rw [webhook_upload_invalid o st c h1 h2]
      exact ⟨[Ev.responded 400], rfl, rfl, by simp, by intro h; simp at h⟩
  · intro o st fu h
    exact webhook_json_truthy o st h

/-- C1 witness: the amended theorem evaluated on a concrete upload and on a
concrete JSON `file_url` submission. -/
theorem c1_inline_vs_detached_witness :
    (∃ evs : List Ev,
      (webhook oracle0 st0 (.upload "a.jpg" [1])).2.events = st0.events ++ evs ∧
      evs.getLast? = some (Ev.responded (webhook oracle0 st0 (.upload "a.jpg" [1])).1.status) ∧
      Ev.spawned ∉ evs ∧
      ((webhook oracle0 st0 (.upload "a.jpg" [1])).1.status = 200 →
        (∃ id, Ev.rowCreated id ∈ evs) ∧
        (webhook oracle0 st0 (.upload "a.jpg" [1])).1.success = some true ∧
        (webhook oracle0 st0 (.upload "a.jpg" [1])).1.record_id.isSome = true)) ∧
    pyTruthy (some "http://y") = true ∧
    webhook oracle0 st0 (.jsonBody (some "http://y")) =
      (⟨202, some true, none⟩, (st0.log .spawned).log (.responded 202)) :=
  ⟨c1_inline_vs_detached.1 oracle0 st0 "a.jpg" [1], by decide,
   c1_inline_vs_detached.2 oracle0 st0 (some "http://y") (by decide)⟩

/-! ## Claim C7 -/

/-- C7 counterexample: an upload named `invoice.exe` — extension outside the
recognized set — sent to the background endpoint `/softr-webhook` is not
rejected: the file is saved and a pipeline thread is spawned with a 202
answer, refuting "for every file upload the caller-facing boundary rejects the
request before invoking the core pipeline". -/
theorem c7_counterexample :
    uploadExt "invoice.exe" = "exe" ∧
    "exe" ∉ allowedExts ∧
    softr_webhook oracle0 st0 (.upload "invoice.exe" [7]) =
      (⟨202, some true, none⟩,
        ⟨[("/tmp/invoice.exe", [7])], [Ev.spawned, Ev.responded 202]⟩) :=
  ⟨by decide, by decide, by decide⟩

/-- C7 (amended): the inline endpoint `/webhook` rejects uploads whose
extension is outside {png, jpg, jpeg, pdf, gif, webp} with a 400 before
invoking the pipeline (no thread spawned, no file written, no pipeline
events); a filename with no extension is assigned the default tag `jpg`; the
background endpoint `/softr-webhook`, however, performs no extension
validation and spawns the pipeline for an upload of any extension. -/
theorem c7_extension_gate :
    (∀ (o : Oracle) (st : St) (fn : String) (c : List Nat), fn ≠ "" →
      uploadExt fn ∉ allowedExts →
      webhook o st (.upload fn c) = (⟨400, none, none⟩, st.log (.responded 400))) ∧
    (∀ fn : String, fn.data.contains '.' = false → uploadExt fn = "jpg") ∧
    (∀ (o : Oracle) (st : St) (fn : String) (c : List Nat), fn ≠ "" →
      softr_webhook o st (.upload fn c) =
        (⟨202, some true, none⟩,
          (((st.write (tmpBase ++ "." ++ uploadExt fn) c).log .spawned)).log
            (.responded 202))) := by
  refine ⟨?_, ?_, ?_⟩
  · intro o st fn c h1 h2
    exact webhook_upload_invalid o st c h1 h2
  · intro fn h
    rw [uploadExt, if_neg (by rw [h]; simp)]
  · intro o st fn c h1
    exact softr_upload_eq o st c h1

/-- C7 witness: the amended theorem evaluated on a rejected `.exe` upload at
the inline endpoint and a dot-free filename. -/
theorem c7_extension_gate_witness :
    ("x.exe" : String) ≠ "" ∧
    uploadExt "x.exe" ∉ allowedExts ∧
    webhook oracle0 st0 (.upload "x.exe" [1]) = (⟨400, none, none⟩, st0.log (.responded 400)) ∧
    ("invoice" : String).data.contains '.' = false ∧
    uploadExt "invoice" = "jpg" :=
  ⟨by decide, by decide,
   c7_extension_gate.1 oracle0 st0 "x.exe" [1] (by decide) (by decide),
   by decide, c7_extension_gate.2.1 "invoice" (by decide)⟩

/-! ## Claim C8 -/

theorem extract_error_of_openai_fail {o : Oracle} {e : String}
    (h : ∀ m b, o.openai m b = .error e) (st : St) (tmp : String) :
    ∃ err st1, extract_invoice_data o st tmp = (.error err, st1) := by
  rw [extract_invoice_data]
  by_cases hpdf : pyEndsWith (lowerS tmp) ".pdf" = true
  · rw [if_pos hpdf, pdf_to_image]
    cases hop : o.pdfOpen tmp with
    | error e2 => exact ⟨e2, st, rfl⟩
    | ok pages =>
      cases pages with
      | nil => exact ⟨"PDF has no pages", st, rfl⟩
      | cons pg rest =>
        dsimp only
        rw [St.readFile_write_self]
        dsimp only
        rw [h (mimeOf (lastExt (pyreplaceS tmp ".pdf" ".png"))) (o.renderPng pg (2, 2))]
        exact ⟨e, _, rfl⟩
  · rw [if_neg hpdf]
    dsimp only
    cases hr : st.readFile tmp with
    | none => exact ⟨"file not found", st, rfl⟩
    | some bytes =>
      dsimp only
      rw [h (mimeOf (lastExt tmp)) bytes]
      exact ⟨e, _, rfl⟩

/-- C8 (confirmed): with `os.unlink` succeeding, every transient file a run
creates is removed on every exit path — inline upload processing, URL-sourced
background runs, and upload-sourced background runs spawned by the background
endpoint, whatever the stage outcomes — and when the completion-service call
fails in inline mode the caller receives a 500 with `success: false` and no
store row is created. -/
theorem c8_transient_cleanup (o : Oracle) (hnf : ∀ q, o.unlinkFails q = false) :
    (∀ (fn : String) (c : List Nat), (webhook o st0 (.upload fn c)).2.files = []) ∧
    (∀ fu : Option String, (process_background o st0 none fu).files = []) ∧
    (∀ (fn : String) (c : List Nat), fn ≠ "" →
      (process_background o ((softr_webhook o st0 (.upload fn c)).2)
        (some (tmpBase ++ "." ++ uploadExt fn)) none).files = []) ∧
    (∀ (fn : String) (c : List Nat) (e : String), (∀ m b, o.openai m b = .error e) →
      (webhook o st0 (.upload fn c)).1.status ≠ 200 ∧
      (∀ id, Ev.rowCreated id ∉ (webhook o st0 (.upload fn c)).2.events) ∧
      (fn ≠ "" → uploadExt fn ∈ allowedExts →
        (webhook o st0 (.upload fn c)).1 = ⟨500, some false, none⟩)) := by
  refine ⟨?_, ?_, ?_, ?_⟩
  · intro fn c
    by_cases h1 : fn = ""
    · subst h1
      rw [webhook_upload_empty]
      rfl
    by_cases h2 : uploadExt fn ∈ allowedExts
    · rw [webhook_upload_valid o st0 c h1 h2, inline_run_files hnf]
      simp [st0]
    · rw [webhook_upload_invalid o st0 c h1 h2]
      rfl
  · intro fu
    rw [process_background_eq]
    by_cases hfu : pyTruthy fu = true
    · cases fu with
      | none => simp [pyTruthy] at hfu
      | some u =>
        have hu : u ≠ "" := by simpa [pyTruthy] using hfu
        cases hfetch : o.httpGet httpTimeout u with
        | error e =>
          rw [pb_try_fetch_error o st0 none hu hfetch]
          rfl
        | ok r =>
          by_cases hbad : 400 ≤ r.status ∧ r.status < 600
          · rw [pb_try_fetch_bad o st0 none hu hfetch hbad.1 hbad.2]
            rfl
          · rw [pb_try_fetch_ok o st0 none hu hfetch hbad, pb_cleanup_files hnf]
            simp [st0]
    · have hfu' : pyTruthy fu = false := by
        revert hfu
        cases pyTruthy fu <;> simp
      rw [pb_try_none_eq o st0 hfu' (show pyTruthy (none : Option String) = false from rfl)]
      rfl
  · intro fn c h1
    rw [softr_upload_eq o st0 c h1]
    dsimp only
    rw [process_background_eq,
      pb_try_file_eq o _ (show pyTruthy (none : Option String) = false from rfl)
        (tmp_name_ne_empty (uploadExt fn)),
      pb_cleanup_files hnf]
    simp [st0]
  · intro fn c e hopenai
    by_cases h1 : fn = ""
    · subst h1
      rw [webhook_upload_empty]
      exact ⟨by simp, by intro id h; simp [st0] at h, fun h _ => absurd rfl h⟩
    by_cases h2 : uploadExt fn ∈ allowedExts
    · obtain ⟨err, st1, hex⟩ := extract_error_of_openai_fail hopenai
        (st0.write (tmpBase ++ "." ++ uploadExt fn) c) (tmpBase ++ "." ++ uploadExt fn)
      have he := extract_events o (st0.write (tmpBase ++ "." ++ uploadExt fn) c)
        (tmpBase ++ "." ++ uploadExt fn)
      rw [hex] at he
      dsimp only at he
      rw [webhook_upload_valid o st0 c h1 h2, webhook_inline_run, hex]
      dsimp only
      refine ⟨by simp, ?_, fun _ _ => rfl⟩
      intro id hid
      simp only [St.events_log, cleanup_events] at hid
      rcases he with he | he <;> rw [he] at hid <;> simp [st0] at hid
    · rw [webhook_upload_invalid o st0 c h1 h2]
      exact ⟨by simp, by intro id h; simp [st0] at h, fun _ h2' => absurd h2' h2⟩

/-- C8 witness: the theorem evaluated on a concrete oracle whose completion
call fails (simulated service outage), for a concrete `.pdf` upload. -/
theorem c8_transient_cleanup_witness :
    (∀ q, oracleOpenaiFail.unlinkFails q = false) ∧
    (∀ m b, oracleOpenaiFail.openai m b = .error "openai down") ∧
    (webhook oracleOpenaiFail st0 (.upload "inv.pdf" [3])).2.files = [] ∧
    (webhook oracleOpenaiFail st0 (.upload "inv.pdf" [3])).1 = ⟨500, some false, none⟩ :=
  ⟨fun _ => rfl, fun _ _ => rfl,
   (c8_transient_cleanup oracleOpenaiFail (fun _ => rfl)).1 "inv.pdf" [3],
   ((c8_transient_cleanup oracleOpenaiFail (fun _ => rfl)).2.2.2 "inv.pdf" [3]
     "openai down" (fun _ _ => rfl)).2.2 (by decide) (by decide)⟩

/-! ## Claim C10 -/

theorem inline_run_unlink_invariant (o : Oracle) (f g : String → Bool) (st : St)
    (tmp : String) :
    (webhook_inline_run { o with unlinkFails := f } st tmp).1 =
      (webhook_inline_run { o with unlinkFails := g } st tmp).1 ∧
    (webhook_inline_run { o with unlinkFails := f } st tmp).2.events =
      (webhook_inline_run { o with unlinkFails := g } st tmp).2.events := by
  have hex : extract_invoice_data { o with unlinkFails := f } st tmp =
      extract_invoice_data { o with unlinkFails := g } st tmp := rfl
  rw [webhook_inline_run, webhook_inline_run, hex]
  rcases hexx : extract_invoice_data { o with unlinkFails := g } st tmp with ⟨res, st1⟩
  cases res with
  | error e =>
    dsimp only
    exact ⟨rfl, by simp [cleanup_events]⟩
  | ok t =>
    dsimp only
    have hcr : create_row { o with unlinkFails := f } st1 =
        create_row { o with unlinkFails := g } st1 := rfl
    rw [hcr]
    rcases hcrr : create_row { o with unlinkFails := g } st1 with ⟨r2, st2⟩
    cases r2 with
    | error e2 =>
      dsimp only
      exact ⟨rfl, by simp [cleanup_events]⟩
    | ok id =>
      dsimp only
      exact ⟨rfl, by simp [cleanup_events]⟩

/-- C10 (confirmed): a failure while removing transient files during cleanup
never changes the run's outcome: at the inline endpoint the HTTP response and
the observable action log are identical under any unlink-failure behavior,
and a background run produces the same action log (it terminates normally
with the cleanup exception suppressed). -/
theorem c10_cleanup_failure_harmless (o : Oracle) (f g : String → Bool) (st : St)
    (req : Req) (fp fu : Option String) :
    ((webhook { o with unlinkFails := f } st req).1 =
      (webhook { o with unlinkFails := g } st req).1) ∧
    ((webhook { o with unlinkFails := f } st req).2.events =
      (webhook { o with unlinkFails := g } st req).2.events) ∧
    ((process_background { o with unlinkFails := f } st fp fu).events =
      (process_background { o with unlinkFails := g } st fp fu).events) := by
  refine ⟨?_, ?_, ?_⟩
  case _ =>
    cases req with
    | upload fn c =>
      by_cases h1 : fn = ""
      · subst h1; rfl
      by_cases h2 : uploadExt fn ∈ allowedExts
      · rw [webhook_upload_valid _ st c h1 h2, webhook_upload_valid _ st c h1 h2]
        exact (inline_run_unlink_invariant o f g _ _).1
      · rw [webhook_upload_invalid _ st c h1 h2, webhook_upload_invalid _ st c h1 h2]
    | jsonBody fu2 => rfl
    | empty => rfl
  case _ =>
    cases req with
    | upload fn c =>
      by_cases h1 : fn = ""
      · subst h1; rfl
      by_cases h2 : uploadExt fn ∈ allowedExts
      · rw [webhook_upload_valid _ st c h1 h2, webhook_upload_valid _ st c h1 h2]
        exact (inline_run_unlink_invariant o f g _ _).2
      · rw [webhook_upload_invalid _ st c h1 h2, webhook_upload_invalid _ st c h1 h2]
    | jsonBody fu2 => rfl
    | empty => rfl
  case _ =>
    rw [process_background_eq, process_background_eq]
    have hpb : pb_try { o with unlinkFails := f } st fp fu =
        pb_try { o with unlinkFails := g } st fp fu := rfl
    rw [hpb]
    simp [cleanup_events]

end SoftrWebhook
